import Mathlib

/-!
# Unreal Miner — Raster Fusion & Anomaly Detection Pipeline: verification

Shallow embedding of the Unreal-Miner repository's processing core and web
API, with theorems settling the specification's claims.

The repository ships the web dashboard route (`web/src/app/api/process/route.ts`),
shell orchestration (`run_pipeline.sh`, config generation) and documentation;
the Python processing core (`process_fusion.py`, `export_unreal.py`, the
validator) is referenced by those callers and by the repository's own critique
but its source is not present in the snapshot.  Definitions for the missing
core are modelled from the specification and are marked `Modelled from the
spec:` in their doc comments.  Definitions for the web route are translated
from `route.ts`; the demo-mode classification path is translated from the
fragment of `process_fusion.py` quoted in the repository's `CRITIQUE.md`.

Numeric values are embedded as rationals (`ℚ`): the claims under
consideration are about exact formulas, guards and orderings, none about
binary floating-point rounding.
-/

/-! ## Web API: POST /api/process (`web/src/app/api/process/route.ts`) -/

/-- The JSON body of a POST to `/api/process`, as destructured by `route.ts`
line 11: `const { s1Path, s2Path, demPath, outputDir, demoMode = true } = body`.
A field absent from the JSON body is `none`. -/
structure ProcessRequestBody where
  s1Path : Option String
  s2Path : Option String
  demPath : Option String
  outputDir : Option String
  demoMode : Bool := true

/-- JavaScript truthiness of an optional string: `undefined` and the empty
string are falsy, any other string is truthy (used by `!s1Path || ...` on
line 14 of `route.ts`). -/
def jsTruthy : Option String → Bool
  | none => false
  | some s => s ≠ ""

/-- The handler's response: either a JSON error with an HTTP status, or the
success path carrying the constructed shell command that is executed. -/
inductive ProcessResponse where
  | errorResp (status : Nat) (message : String)
  | okResp (cmd : String)
  deriving DecidableEq, Repr

/-- The shell command built on lines 24-30 of `route.ts` once validation has
passed (`projectRoot` is `path.resolve(process.cwd(), '..')`; `now` is
`Date.now()`). -/
def buildProcessCommand (projectRoot s1 s2 dem outDir : String)
    (demoMode : Bool) (now : Nat) : String :=
  "cd \"" ++ projectRoot ++ "\" && python -m unreal_miner.process_fusion" ++
  " --s1-path \"" ++ s1 ++ "\"" ++
  " --s2-path \"" ++ s2 ++ "\"" ++
  " --dem-path \"" ++ dem ++ "\"" ++
  " --output-dir \"" ++ outDir ++ "\"" ++
  (if demoMode then " --demo-mode" else " ") ++
  " --tile-id \"web_job_" ++ toString now ++ "\""

/-- The POST handler of `route.ts` (lines 8-62): if any of the four required
parameters is missing (JS-falsy), it returns HTTP 400 with an error message
naming the required parameters and never reaches the command construction;
otherwise it constructs and executes the processing shell command. -/
def postProcess (body : ProcessRequestBody) (projectRoot : String) (now : Nat) :
    ProcessResponse :=
  if jsTruthy body.s1Path && jsTruthy body.s2Path && jsTruthy body.demPath &&
      jsTruthy body.outputDir then
    .okResp (buildProcessCommand projectRoot (body.s1Path.getD "")
      (body.s2Path.getD "") (body.demPath.getD "") (body.outputDir.getD "")
      body.demoMode now)
  else
    .errorResp 400 "Missing required parameters: s1Path, s2Path, demPath, outputDir"

/-! ## Data model (spec §3) -/

/-- Modelled from the spec: a `Raster` is a numeric array with a nodata
sentinel, a CRS identifier, a bounding box and a pixel size (the affine
transform's rotation part, unused by any claim, is omitted). -/
structure Raster where
  pixels : List ℚ
  nodata : ℚ
  crs : String
  bboxXMin : ℚ := 0
  bboxYMin : ℚ := 0
  bboxXMax : ℚ := 10
  bboxYMax : ℚ := 10
  pixelSizeX : ℚ := 1
  pixelSizeY : ℚ := 1
  deriving DecidableEq

/-- The valid pixels of a raster: those not equal to its nodata sentinel. -/
def validPixels (r : Raster) : List ℚ :=
  r.pixels.filter (fun p => p ≠ r.nodata)

/-- Minimum of a list of rationals (`none` on the empty list). -/
def listMin : List ℚ → Option ℚ
  | [] => none
  | x :: xs => some (xs.foldl min x)

/-- Maximum of a list of rationals (`none` on the empty list). -/
def listMax : List ℚ → Option ℚ
  | [] => none
  | x :: xs => some (xs.foldl max x)

/-- Minimum and maximum of a raster's valid pixels, `none` when the raster
has no valid pixel. -/
def rasterMinMax (r : Raster) : Option (ℚ × ℚ) :=
  match listMin (validPixels r), listMax (validPixels r) with
  | some mn, some mx => some (mn, mx)
  | _, _ => none

/-- Modelled from the spec: a `Tile` is a named collection of co-registered
rasters — radar VV/VH, optical NIR/Red/Green, and elevation. -/
structure Tile where
  vv : Raster
  vh : Raster
  nir : Raster
  red : Raster
  green : Raster
  dem : Raster

/-- The member rasters of a tile, in fixed order. -/
def tileRasters (t : Tile) : List Raster :=
  [t.vv, t.vh, t.nir, t.red, t.green, t.dem]

/-! ## Validator (spec §4.1, modelled) -/

/-- The validation error taxonomy (spec §7). -/
inductive ValidationError where
  | insufficientValidPixels
  | crsMismatch
  | noExtentOverlap
  deriving DecidableEq, Repr

/-- Per-raster statistics reported by the validator. -/
structure RasterStats where
  validCount : Nat
  totalCount : Nat
  validFraction : ℚ
  deriving DecidableEq, Repr

/-- Modelled from the spec: the fraction of pixels not equal to the nodata
sentinel (0 for an empty raster). -/
def rasterStats (r : Raster) : RasterStats :=
  let v := (validPixels r).length
  let t := r.pixels.length
  { validCount := v, totalCount := t,
    validFraction := if t = 0 then 0 else (v : ℚ) / (t : ℚ) }

/-- Whether CRS identifiers differ across the rasters (some raster's CRS
differs from the first one's; equivalent to the existence of a differing
pair). -/
def crsDiffer : List Raster → Bool
  | [] => false
  | r :: rs => rs.any (fun s => s.crs ≠ r.crs)

/-- Modelled from the spec: the intersection of the rasters' bounding boxes
is empty or degenerate — zero extent, or area below one pixel of the tile's
grid ("near-zero overlap counts as no overlap"). -/
def extentOverlapDegenerate : List Raster → Bool
  | [] => false
  | r :: rs =>
    let xmin := rs.foldl (fun a s => max a s.bboxXMin) r.bboxXMin
    let ymin := rs.foldl (fun a s => max a s.bboxYMin) r.bboxYMin
    let xmax := rs.foldl (fun a s => min a s.bboxXMax) r.bboxXMax
    let ymax := rs.foldl (fun a s => min a s.bboxYMax) r.bboxYMax
    decide (xmax ≤ xmin) || decide (ymax ≤ ymin) ||
      decide ((xmax - xmin) * (ymax - ymin) < r.pixelSizeX * r.pixelSizeY)

/-- The validator's report: per-raster statistics plus the list of failed
checks (empty when validation succeeds).  All failures are reported, so a
tile failing several checks surfaces every one of them. -/
structure ValidationReport where
  stats : List RasterStats
  errors : List ValidationError
  deriving DecidableEq, Repr

/-- Modelled from the spec: `validate(tile_rasters, min_valid_fraction,
require_crs_match)` — fails with `InsufficientValidPixels` if any raster's
valid fraction is below the threshold or a raster is entirely nodata
(rejected regardless of threshold); with `CRSMismatch` when CRS identifiers
differ and `require_crs_match` is set; with `NoExtentOverlap` when the
bounding-box intersection is empty or degenerate.  Pure check, no side
effects. -/
def validate (rasters : List Raster) (minValidFraction : ℚ)
    (requireCrsMatch : Bool) : ValidationReport :=
  let pixelFail := rasters.any (fun r =>
    decide ((rasterStats r).validFraction < minValidFraction) ||
      (validPixels r).length == 0)
  let crsFail := requireCrsMatch && crsDiffer rasters
  let overlapFail := extentOverlapDegenerate rasters
  { stats := rasters.map rasterStats,
    errors :=
      (if pixelFail then [ValidationError.insufficientValidPixels] else []) ++
      (if crsFail then [ValidationError.crsMismatch] else []) ++
      (if overlapFail then [ValidationError.noExtentOverlap] else []) }

/-! ## Feature Extractor (spec §4.2, modelled) -/

/-- Modelled from the spec: flooring VH at a small positive epsilon before
dividing, the guard against division by zero in the cross-polarization
ratio. -/
def epsFloor (vh eps : ℚ) : ℚ := max vh eps

/-- Modelled from the spec: the radar cross-polarization ratio `VV/VH`, with
VH floored at epsilon so the division-by-zero branch is unreachable. -/
def crossPolRatio (vv vh eps : ℚ) : ℚ := vv / epsFloor vh eps

/-- Modelled from the spec: a normalized difference index `(A − B)/(A + B)`,
defined as 0 when the denominator is 0. -/
def normDiff (a b : ℚ) : ℚ :=
  if a + b = 0 then 0 else (a - b) / (a + b)

/-- One named feature band. -/
structure FeatureBand where
  name : String
  values : List ℚ
  deriving DecidableEq

/-- Modelled from the spec: an ordered list of named feature bands with a
fixed band order. -/
structure FeatureStack where
  bands : List FeatureBand
  deriving DecidableEq

/-- Modelled from the spec: `extract(tile, config)` producing the stacked
feature bands in a fixed order — the radar cross-polarization ratio and the
optical normalized difference indices NDVI (NIR/Red) and NDWI (Green/NIR).
The windowed texture/terrain bands are not modelled: no claim under
consideration concerns them. -/
def extract (t : Tile) (eps : ℚ) : FeatureStack :=
  { bands := [
      ⟨"vv_vh_ratio", List.zipWith (fun a b => crossPolRatio a b eps) t.vv.pixels t.vh.pixels⟩,
      ⟨"ndvi", List.zipWith normDiff t.nir.pixels t.red.pixels⟩,
      ⟨"ndwi", List.zipWith normDiff t.green.pixels t.nir.pixels⟩ ] }

/-! ## Anomaly/Classification Engine (spec §4.3, modelled) -/

/-- A 64-bit linear congruential step: the explicit deterministic
pseudo-random stream through which, per spec §9, all randomness flows from
one seed parameter. -/
def lcgNext (s : Nat) : Nat :=
  (6364136223846793005 * s + 1442695040888963407) % 18446744073709551616

/-- Modelled from the spec (§5): a fixed per-tree sub-seed derivable from the
global seed, keeping results deterministic across levels of parallelism. -/
def subSeed (globalSeed i : Nat) : Nat := lcgNext (lcgNext globalSeed + i)

/-- A deterministic hash of a feature vector, folded through the LCG. -/
def featureHash (seed : Nat) (x : List ℚ) : Nat :=
  x.foldl (fun a q => lcgNext (a + q.num.natAbs + q.den)) seed

/-- The per-pixel feature vectors of a stack (band values at each pixel
index, in band order). -/
def pixelVectors (stack : FeatureStack) : List (List ℚ) :=
  let n := (stack.bands.head?.map (fun b => b.values.length)).getD 0
  (List.range n).map (fun i => stack.bands.map (fun b => b.values.getD i 0))

/-- Modelled from the spec: the path-length statistic of one randomized
isolation tree on one pixel, abstracted as a deterministic function of the
pixel's feature vector and the tree's sub-seed (the actual tree construction
is in the missing `process_fusion.py`). -/
def treePathScore (seed : Nat) (x : List ℚ) : ℚ :=
  ((featureHash seed x % 256 : Nat) : ℚ) / 256

/-- Modelled from the spec: the raw ensemble score of one pixel — the average
over `nTrees` trees, each seeded with its sub-seed derived from the global
seed. -/
def rawScore (globalSeed nTrees : Nat) (x : List ℚ) : ℚ :=
  if nTrees = 0 then 0
  else ((List.range nTrees).map (fun i => treePathScore (subSeed globalSeed i) x)).sum
    / (nTrees : ℚ)

/-- Modelled from the spec: linear min-max normalization of the raw scores
over the tile to [0,1] (constant score lists normalize to 0). -/
def minMaxNormalize (xs : List ℚ) : List ℚ :=
  match listMin xs, listMax xs with
  | some mn, some mx =>
      if mn = mx then xs.map (fun _ => 0)
      else xs.map (fun s => (s - mn) / (mx - mn))
  | _, _ => []

/-- Per-pixel anomaly scores in [0,1] and discrete class labels. -/
structure AnomalyResult where
  scores : List ℚ
  classes : List Nat
  deriving DecidableEq

/-- Modelled from the spec: the unsupervised anomaly engine — raw ensemble
scores per pixel, min-max normalized over the tile, with a pixel classed
anomalous when its normalized score reaches `1 - contamination`.  A pure
function of the stack, the seed, the ensemble size and the contamination. -/
def runAnomalyEngine (stack : FeatureStack) (seed nTrees : Nat)
    (contamination : ℚ) : AnomalyResult :=
  let scores := minMaxNormalize ((pixelVectors stack).map (rawScore seed nTrees))
  { scores := scores,
    classes := scores.map (fun s => if 1 - contamination ≤ s then 1 else 0) }

/-- Number of fabricated training samples, from `process_fusion.py:210` as
quoted in the repository's `CRITIQUE.md`: `n_train_samples = 1000`. -/
def nTrainSamples : Nat := 1000

/-- From `process_fusion.py:210` as quoted in the repository's `CRITIQUE.md`:
`y_train = np.random.randint(0, 3, n_train_samples)` — training labels for
the three "mineral classes" are drawn from the pseudo-random stream, not
from any supplied labeled data (here the numpy generator is modelled by the
explicit LCG). -/
def fabricatedTrainingLabels (seed : Nat) : List Nat :=
  (List.range nTrainSamples).map (fun i => lcgNext (seed + i) % 3)

/-- The output of the demo-mode classification path: a per-pixel class map
and whether the output is flagged as untrained/placeholder. -/
structure ClassificationOutput where
  classMap : List Nat
  untrainedFlagged : Bool

/-- The demo-mode supervised classification path of `process_fusion.py` (the
fragment quoted in `CRITIQUE.md`, plus the demo run record): a classifier is
fitted to `X_train = np.random.rand(...)` and the fabricated labels, then
predicts a class per pixel (modelled as a deterministic lookup of a
fabricated label by feature hash).  The emitted output carries no
untrained/placeholder flag — `untrainedFlagged` is `false` on this path. -/
def demoModeClassify (stack : FeatureStack) (seed : Nat) : ClassificationOutput :=
  let yTrain := fabricatedTrainingLabels seed
  { classMap := (pixelVectors stack).map (fun x =>
      yTrain.getD (featureHash seed x % nTrainSamples) 0),
    untrainedFlagged := false }

/-! ## Asset Encoder (spec §4.4, modelled) -/

/-- The encoding error taxonomy (spec §7), plus a distinct error for an
elevation raster with no valid pixels (which the spec's validator rejects
upstream and `encode_height` itself leaves unspecified). -/
inductive EncodeError where
  | invalidTargetSize
  | degenerateElevation
  deriving DecidableEq, Repr

/-- Modelled from the spec: `target_size` MUST be of the form `2^k + 1`; the
check is `n ≥ 2` with `n - 1` an exact power of two (`export_unreal.py` is
not in the snapshot; its callers pass 4097 and the documentation states the
power-of-two-plus-one rule). -/
def isValidTargetSize (n : Nat) : Bool :=
  2 ≤ n && n - 1 == 2 ^ Nat.log2 (n - 1)

/-- Modelled from the spec: the recognized configuration option `target_size`
defaults to 1025 when not supplied (the repository's `README.md` example
configuration and the demo run's 1025×1025 heightmap exhibit the default;
the generated `config/default.yaml` supplies 4097 explicitly). -/
def resolveTargetSize (configured : Option Nat) : Nat :=
  configured.getD 1025

/-- Clamp an integer to the 16-bit unsigned range [0, 65535]. -/
def clampToU16 (z : ℤ) : ℤ := max 0 (min z 65535)

/-- Modelled from the spec: the height encoding formula
`value16 = round((elevation - min_elev) / (max_elev - min_elev) * 65535)`,
clamped to [0, 65535]. -/
def encodeValue (minE maxE e : ℚ) : ℤ :=
  clampToU16 (round ((e - minE) / (maxE - minE) * 65535))

/-- The inverse decoding formula
`elevation = value16 / 65535 * (max_elev - min_elev) + min_elev`. -/
def decodeValue (minE maxE : ℚ) (v : ℤ) : ℚ :=
  (v : ℚ) / 65535 * (maxE - minE) + minE

/-- The metadata record accompanying a height buffer (spec §4.4). -/
structure HeightMetadata where
  crs : String
  minElev : ℚ
  maxElev : ℚ
  zScale : ℚ
  verticalExaggeration : ℚ
  targetSize : Nat
  sourceTileId : String
  deriving DecidableEq

/-- A height buffer with its metadata. -/
structure HeightAsset where
  buffer : List ℤ
  meta : HeightMetadata

/-- Modelled from the spec: `encode_height(elevation, target_size,
vertical_exaggeration)` — fails with `InvalidTargetSize` unless the target
size is of the form `2^k + 1`; computes `min_elev`/`max_elev` from the source
raster's valid pixels; encodes with the 16-bit formula; and records
`z_scale = ((max_elev - min_elev) / 65535) * vertical_exaggeration` in the
metadata.  The cubic resampling to `target_size × target_size` is not
modelled (no claim concerns interpolation): the buffer encodes the valid
source elevations. -/
def encode_height (elevation : Raster) (targetSize : Nat)
    (verticalExaggeration : ℚ) (tileId : String) :
    Except EncodeError HeightAsset :=
  if isValidTargetSize targetSize then
    match rasterMinMax elevation with
    | none => .error .degenerateElevation
    | some (mn, mx) =>
        .ok { buffer := (validPixels elevation).map (encodeValue mn mx),
              meta := { crs := elevation.crs, minElev := mn, maxElev := mx,
                        zScale := (mx - mn) / 65535 * verticalExaggeration,
                        verticalExaggeration := verticalExaggeration,
                        targetSize := targetSize, sourceTileId := tileId } }
  else .error .invalidTargetSize

/-! ## Pipeline (spec §2: linear batch control flow, modelled) -/

/-- The pipeline stages, in data-flow order. -/
inductive Stage where
  | validation
  | featureExtraction
  | anomalyEngine
  | assetEncoder
  deriving DecidableEq, Repr

/-- The recognized configuration options with their spec defaults (§6). -/
structure PipelineConfig where
  minValidFraction : ℚ := 1 / 2
  requireCrsMatch : Bool := true
  epsilon : ℚ := 1 / 1000000
  nEstimators : Nat := 200
  contamination : ℚ := 1 / 50
  randomSeed : Nat := 42
  targetSize : Option Nat := none
  verticalExaggeration : ℚ := 2

/-- One pipeline run: the stages that executed, the validation report, and
the anomaly result when the run reached the engine. -/
structure PipelineRun where
  trace : List Stage
  report : ValidationReport
  result : Option AnomalyResult

/-- Modelled from the spec: the linear batch pipeline — validation first;
every validation error is terminal for the tile, so the downstream stages
(feature extraction, anomaly engine, asset encoder) execute only when the
validation report carries no error. -/
def runPipeline (t : Tile) (cfg : PipelineConfig) : PipelineRun :=
  let report := validate (tileRasters t) cfg.minValidFraction cfg.requireCrsMatch
  if report.errors.isEmpty then
    { trace := [Stage.validation, Stage.featureExtraction, Stage.anomalyEngine,
        Stage.assetEncoder],
      report := report,
      result := some (runAnomalyEngine (extract t cfg.epsilon) cfg.randomSeed
        cfg.nEstimators cfg.contamination) }
  else
    { trace := [Stage.validation], report := report, result := none }

/-! ## Concrete sample data for witnesses -/

/-- A raster helper with the shared sample grid. -/
def mkRaster (pixels : List ℚ) (crs : String) : Raster :=
  { pixels := pixels, nodata := -9999, crs := crs }

/-- A small elevation raster whose valid-pixel extremes are 145.3 and 892.7,
with one nodata pixel. -/
def sampleElevation : Raster :=
  mkRaster [300, 145.3, 892.7, -9999, 500] "EPSG:32610"

/-- A small feature stack with two bands over four pixels. -/
def sampleStack : FeatureStack :=
  { bands := [⟨"vv_vh_ratio", [1, 2, 3, 4]⟩, ⟨"ndvi", [0, 1/2, 1, 1/4]⟩] }

/-- A tile whose DEM carries a CRS different from the radar rasters — a CRS
mismatch example. -/
def crsMismatchTile : Tile :=
  { vv := mkRaster [1, 2] "EPSG:32610",
    vh := mkRaster [3, 4] "EPSG:32610",
    nir := mkRaster [5, 6] "EPSG:32610",
    red := mkRaster [7, 8] "EPSG:32610",
    green := mkRaster [9, 10] "EPSG:32610",
    dem := mkRaster [11, 12] "EPSG:4326" }

/-! ## Helper lemmas -/

theorem isValidTargetSize_iff (n : Nat) :
    isValidTargetSize n = true ↔ ∃ k, n = 2 ^ k + 1 := by
  unfold isValidTargetSize
  simp only [Bool.and_eq_true, decide_eq_true_eq, beq_iff_eq]
  constructor
  · rintro ⟨h2, hpow⟩
    exact ⟨Nat.log2 (n - 1), by omega⟩
  · rintro ⟨k, rfl⟩
    have hpos : 1 ≤ 2 ^ k := Nat.one_le_two_pow
    refine ⟨by omega, ?_⟩
    have h : 2 ^ k + 1 - 1 = 2 ^ k := by omega
    rw [h, Nat.log2_eq_log_two, Nat.log_pow Nat.one_lt_two]

theorem foldl_min_le (xs : List ℚ) (x : ℚ) : xs.foldl min x ≤ x := by
  induction xs generalizing x with
  | nil => simp
  | cons y ys ih => exact le_trans (ih (min x y)) (min_le_left x y)

theorem foldl_min_le_of_mem (xs : List ℚ) (x y : ℚ) (hy : y ∈ xs) :
    xs.foldl min x ≤ y := by
  induction xs generalizing x with
  | nil => cases hy
  | cons z zs ih =>
    rcases List.mem_cons.mp hy with rfl | hmem
    · exact le_trans (foldl_min_le zs (min x y)) (min_le_right x y)
    · exact ih (min x z) hmem

theorem foldl_min_mem (xs : List ℚ) (x : ℚ) : xs.foldl min x ∈ x :: xs := by
  induction xs generalizing x with
  | nil => simp
  | cons y ys ih =>
    have h := ih (min x y)
    rcases List.mem_cons.mp h with h1 | h1
    · rw [List.foldl_cons, h1]
      rcases min_choice x y with hc | hc <;> rw [hc] <;> simp
    · simp only [List.foldl_cons, List.mem_cons]
      right; right; exact h1

theorem le_foldl_max (xs : List ℚ) (x : ℚ) : x ≤ xs.foldl max x := by
  induction xs generalizing x with
  | nil => simp
  | cons y ys ih => exact le_trans (le_max_left x y) (ih (max x y))

theorem le_foldl_max_of_mem (xs : List ℚ) (x y : ℚ) (hy : y ∈ xs) :
    y ≤ xs.foldl max x := by
  induction xs generalizing x with
  | nil => cases hy
  | cons z zs ih =>
    rcases List.mem_cons.mp hy with rfl | hmem
    · exact le_trans (le_max_right x y) (le_foldl_max zs (max x y))
    · exact ih (max x z) hmem

theorem foldl_max_mem (xs : List ℚ) (x : ℚ) : xs.foldl max x ∈ x :: xs := by
  induction xs generalizing x with
  | nil => simp
  | cons y ys ih =>
    have h := ih (max x y)
    rcases List.mem_cons.mp h with h1 | h1
    · rw [List.foldl_cons, h1]
      rcases max_choice x y with hc | hc <;> rw [hc] <;> simp
    · simp only [List.foldl_cons, List.mem_cons]
      right; right; exact h1

theorem listMin_spec (xs : List ℚ) (m : ℚ) (h : listMin xs = some m) :
    m ∈ xs ∧ ∀ y ∈ xs, m ≤ y := by
  cases xs with
  | nil => cases h
  | cons x ys =>
    simp only [listMin, Option.some.injEq] at h
    subst h
    refine ⟨foldl_min_mem ys x, ?_⟩
    intro y hy
    rcases List.mem_cons.mp hy with rfl | hmem
    · exact foldl_min_le ys y
    · exact foldl_min_le_of_mem ys x y hmem

theorem listMax_spec (xs : List ℚ) (m : ℚ) (h : listMax xs = some m) :
    m ∈ xs ∧ ∀ y ∈ xs, y ≤ m := by
  cases xs with
  | nil => cases h
  | cons x ys =>
    simp only [listMax, Option.some.injEq] at h
    subst h
    refine ⟨foldl_max_mem ys x, ?_⟩
    intro y hy
    rcases List.mem_cons.mp hy with rfl | hmem
    · exact le_foldl_max ys y
    · exact le_foldl_max_of_mem ys x y hmem

theorem rasterMinMax_spec (r : Raster) (mn mx : ℚ)
    (h : rasterMinMax r = some (mn, mx)) :
    mn ∈ validPixels r ∧ mx ∈ validPixels r ∧
      ∀ p ∈ validPixels r, mn ≤ p ∧ p ≤ mx := by
  unfold rasterMinMax at h
  rcases hmin : listMin (validPixels r) with _ | mn2 <;> rw [hmin] at h
  · cases h
  rcases hmax : listMax (validPixels r) with _ | mx2 <;> rw [hmax] at h
  · cases h
  simp only [Option.some.injEq, Prod.mk.injEq] at h
  obtain ⟨rfl, rfl⟩ := h
  obtain ⟨hmem1, hle1⟩ := listMin_spec _ _ hmin
  obtain ⟨hmem2, hle2⟩ := listMax_spec _ _ hmax
  exact ⟨hmem1, hmem2, fun p hp => ⟨hle1 p hp, hle2 p hp⟩⟩

theorem crsDiffer_of_pair (l : List Raster) (r1 r2 : Raster) (h1 : r1 ∈ l)
    (h2 : r2 ∈ l) (hne : r1.crs ≠ r2.crs) : crsDiffer l = true := by
  cases l with
  | nil => cases h1
  | cons r rs =>
    by_contra hfalse
    have hall : ∀ s ∈ rs, s.crs = r.crs := by
      intro s hs
      by_contra hne2
      apply hfalse
      simp only [crsDiffer, List.any_eq_true]
      exact ⟨s, hs, by simpa using hne2⟩
    have e1 : r1.crs = r.crs := by
      rcases List.mem_cons.mp h1 with rfl | hmem
      · rfl
      · exact hall r1 hmem
    have e2 : r2.crs = r.crs := by
      rcases List.mem_cons.mp h2 with rfl | hmem
      · rfl
      · exact hall r2 hmem
    exact hne (e1.trans e2.symm)

/-! ## Claim theorems -/

/-- **C10.** For every POST body missing any of `s1Path`, `s2Path`, `demPath`
or `outputDir`, the handler returns HTTP 400 with an error message naming the
required parameters, and the processing shell command is never constructed or
executed (the success response carrying a command is never produced). -/
theorem post_process_missing_param_returns_400 (body : ProcessRequestBody)
    (projectRoot : String) (now : Nat)
    (h : body.s1Path = none ∨ body.s2Path = none ∨ body.demPath = none ∨
      body.outputDir = none) :
    postProcess body projectRoot now =
      .errorResp 400 "Missing required parameters: s1Path, s2Path, demPath, outputDir"
    ∧ ∀ cmd, postProcess body projectRoot now ≠ .okResp cmd := by
  have hfalse : (jsTruthy body.s1Path && jsTruthy body.s2Path &&
      jsTruthy body.demPath && jsTruthy body.outputDir) = false := by
    rcases h with h | h | h | h <;> simp [h, jsTruthy]
  refine ⟨?_, ?_⟩
  · unfold postProcess
    rw [hfalse]
    simp
  · intro cmd
    unfold postProcess
    rw [hfalse]
    simp

/-- Witness for C10: a concrete body with `demPath` missing yields the 400
response and no command. -/
theorem post_process_missing_param_returns_400_witness :
    postProcess ⟨some "/d/s1.tif", some "/d/s2.tif", none, some "/d/out", true⟩
        "/root" 0 =
      .errorResp 400 "Missing required parameters: s1Path, s2Path, demPath, outputDir"
    ∧ ∀ cmd, postProcess ⟨some "/d/s1.tif", some "/d/s2.tif", none, some "/d/out", true⟩
        "/root" 0 ≠ .okResp cmd :=
  post_process_missing_param_returns_400 _ _ _ (Or.inr (Or.inr (Or.inl rfl)))

/-- **C9.** When no `target_size` is supplied in the configuration the
recognized option defaults to 1025, and 1025 is an element of the `2^k + 1`
set. -/
theorem target_size_defaults_to_1025 :
    resolveTargetSize none = 1025 ∧ isValidTargetSize 1025 = true ∧
      1025 = 2 ^ 10 + 1 := by
  refine ⟨rfl, ?_, rfl⟩
  rw [isValidTargetSize_iff]
  exact ⟨10, rfl⟩

/-- **C2.** `encode_height` fails with `InvalidTargetSize` exactly when the
target size is not of the form `2^k + 1`; in particular 4096 fails and 4097
does not fail with `InvalidTargetSize`. -/
theorem encode_height_target_size_validation (n : Nat) (r : Raster) (ve : ℚ)
    (tid : String) :
    (encode_height r n ve tid = .error .invalidTargetSize ↔ ¬ ∃ k, n = 2 ^ k + 1)
    ∧ encode_height r 4096 ve tid = .error .invalidTargetSize
    ∧ encode_height r 4097 ve tid ≠ .error .invalidTargetSize := by
  have hmain : ∀ m : Nat,
      encode_height r m ve tid = .error .invalidTargetSize ↔ ¬ ∃ k, m = 2 ^ k + 1 := by
    intro m
    by_cases hv : isValidTargetSize m = true
    · constructor
      · intro heq
        exfalso
        unfold encode_height at heq
        rw [if_pos hv] at heq
        rcases hmm : rasterMinMax r with _ | ⟨mn, mx⟩ <;> rw [hmm] at heq <;>
          simp at heq
      · intro hnot
        exact absurd ((isValidTargetSize_iff m).mp hv) hnot
    · have hfalse : isValidTargetSize m = false := by
        simpa using hv
      constructor
      · intro _
        rw [← isValidTargetSize_iff, hfalse]
        simp
      · intro _
        unfold encode_height
        rw [if_neg (by simp [hfalse])]
  refine ⟨hmain n, ?_, ?_⟩
  · rw [hmain 4096]
    rintro ⟨k, hk⟩
    have hpow : 2 ^ k = 4095 := by omega
    cases k with
    | zero => simp at hpow
    | succ m =>
      rw [pow_succ] at hpow
      omega
  · intro heq
    exact (hmain 4097).mp heq ⟨12, rfl⟩

/-- **C3.** For every elevation raster with valid-pixel minimum `mn` and
maximum `mx` and every vertical exaggeration, `encode_height` records the
metadata vertical scale `z_scale = ((mx - mn) / 65535) * ve` (with `mn`/`mx`
really the extremes of the valid pixels); for the range [145.3, 892.7] with
exaggeration 2.0 the formula's value is within 10⁻⁵ of 0.02281. -/
theorem encode_height_z_scale (r : Raster) (ts : Nat) (ve : ℚ) (tid : String)
    (mn mx : ℚ) (hts : isValidTargetSize ts = true)
    (hmm : rasterMinMax r = some (mn, mx)) :
    encode_height r ts ve tid = .ok
      { buffer := (validPixels r).map (encodeValue mn mx),
        meta := { crs := r.crs, minElev := mn, maxElev := mx,
                  zScale := (mx - mn) / 65535 * ve,
                  verticalExaggeration := ve, targetSize := ts,
                  sourceTileId := tid } }
    ∧ mn ∈ validPixels r ∧ mx ∈ validPixels r
    ∧ (∀ p ∈ validPixels r, mn ≤ p ∧ p ≤ mx)
    ∧ |((892.7 : ℚ) - 145.3) / 65535 * 2 - 0.02281| < 1 / 100000 := by
  obtain ⟨h1, h2, h3⟩ := rasterMinMax_spec r mn mx hmm
  refine ⟨?_, h1, h2, h3, by rw [abs_lt]; constructor <;> norm_num⟩
  unfold encode_height
  rw [if_pos hts, hmm]

/-- Witness for C3: the sample elevation raster (valid extremes 145.3 and
892.7) encoded at target size 1025 with exaggeration 2 yields
`z_scale = (892.7 - 145.3) / 65535 * 2`. -/
theorem encode_height_z_scale_witness :
    ∃ asset, encode_height sampleElevation 1025 2 "tile_001" = .ok asset
      ∧ asset.meta.zScale = ((892.7 : ℚ) - 145.3) / 65535 * 2 := by
  obtain ⟨h, -⟩ := encode_height_z_scale sampleElevation 1025 2 "tile_001"
    145.3 892.7 (by rw [isValidTargetSize_iff]; exact ⟨10, rfl⟩)
    (by norm_num [rasterMinMax, validPixels, sampleElevation, mkRaster,
      listMin, listMax, List.filter, min_def, max_def])
  exact ⟨_, h, rfl⟩

/-- **C4.** For valid-pixel extremes `mn < mx`, each 16-bit height value is
`round((e - mn) / (mx - mn) * 65535)` clamped to [0, 65535]; decoding by the
inverse formula recovers every in-range elevation to within one 16-bit
quantization step `(mx - mn) / 65535`; and the decoded extremes equal `mn`
and `mx` exactly. -/
theorem height_encoding_round_trip (mn mx e : ℚ) (hlt : mn < mx)
    (he1 : mn ≤ e) (he2 : e ≤ mx) :
    encodeValue mn mx e = clampToU16 (round ((e - mn) / (mx - mn) * 65535))
    ∧ |decodeValue mn mx (encodeValue mn mx e) - e| ≤ (mx - mn) / 65535
    ∧ decodeValue mn mx (encodeValue mn mx mn) = mn
    ∧ decodeValue mn mx (encodeValue mn mx mx) = mx := by
  have hd : 0 < mx - mn := by linarith
  set t : ℚ := (e - mn) / (mx - mn) * 65535 with ht
  have ht0 : 0 ≤ t := by
    apply mul_nonneg (div_nonneg (by linarith) (le_of_lt hd))
    norm_num
  have ht1 : t ≤ 65535 := by
    have hq : (e - mn) / (mx - mn) ≤ 1 := (div_le_one hd).mpr (by linarith)
    calc t = (e - mn) / (mx - mn) * 65535 := rfl
    _ ≤ 1 * 65535 := by
        apply mul_le_mul_of_nonneg_right hq
        norm_num
    _ = 65535 := by norm_num
  have hr0 : 0 ≤ round t := by
    rw [round_eq]
    exact Int.floor_nonneg.mpr (by linarith)
  have hr1 : round t ≤ 65535 := by
    rw [round_eq]
    have hfl : ((⌊t + 1 / 2⌋ : ℤ) : ℚ) ≤ t + 1 / 2 := Int.floor_le _
    have hlt2 : ((⌊t + 1 / 2⌋ : ℤ) : ℚ) < ((65536 : ℤ) : ℚ) := by
      push_cast
      linarith
    have := Int.cast_lt.mp hlt2
    omega
  have hclamp : clampToU16 (round t) = round t := by
    unfold clampToU16
    omega
  have hval : encodeValue mn mx e = round t := by
    rw [encodeValue, ← ht, hclamp]
  refine ⟨rfl, ?_, ?_, ?_⟩
  · rw [hval]
    unfold decodeValue
    have hkey : ((round t : ℤ) : ℚ) / 65535 * (mx - mn) + mn - e =
        (((round t : ℤ) : ℚ) - t) * (mx - mn) / 65535 := by
      rw [ht]
      field_simp
      ring
    rw [hkey, abs_div, abs_mul, abs_of_pos hd]
    have habs : |((round t : ℤ) : ℚ) - t| ≤ 1 / 2 := by
      rw [abs_sub_comm]
      exact abs_sub_round t
    have h65 : |(65535 : ℚ)| = 65535 := by norm_num
    rw [h65]
    rw [div_le_div_iff₀ (by norm_num) (by norm_num)]
    nlinarith [habs, hd]
  · have htmn : (mn - mn) / (mx - mn) * 65535 = 0 := by
      simp
    rw [encodeValue, htmn, round_zero]
    have : clampToU16 0 = 0 := by
      unfold clampToU16
      omega
    rw [this]
    unfold decodeValue
    push_cast
    ring
  · have htmx : (mx - mn) / (mx - mn) * 65535 = (65535 : ℚ) := by
      rw [div_self (ne_of_gt hd)]
      norm_num
    have hrmx : round ((65535 : ℚ)) = (65535 : ℤ) := by
      have : ((65535 : ℤ) : ℚ) = (65535 : ℚ) := by norm_num
      rw [← this, round_intCast]
    rw [encodeValue, htmx, hrmx]
    have : clampToU16 65535 = 65535 := by
      unfold clampToU16
      omega
    rw [this]
    unfold decodeValue
    push_cast
    field_simp

/-- Witness for C4: the range [0, 100] with elevation 30 — the decode error
is within one quantization step and the extremes decode exactly. -/
theorem height_encoding_round_trip_witness :
    |decodeValue 0 100 (encodeValue 0 100 30) - 30| ≤ ((100 : ℚ) - 0) / 65535
    ∧ decodeValue 0 100 (encodeValue 0 100 0) = 0
    ∧ decodeValue 0 100 (encodeValue 0 100 100) = 100 := by
  obtain ⟨-, h1, h2, h3⟩ := height_encoding_round_trip 0 100 30 (by norm_num)
    (by norm_num) (by norm_num)
  exact ⟨h1, h2, h3⟩

/-- **C5.** The anomaly engine is a deterministic function of its inputs and
seed: two runs with the same FeatureStack, seed, ensemble size and
contamination produce identical results — identical per-pixel scores and
identical class assignments.  All randomness is threaded from the explicit
seed through the LCG stream, so no ambient state can differ between runs. -/
theorem anomaly_engine_deterministic (s1 s2 : FeatureStack)
    (seed1 seed2 n1 n2 : Nat) (c1 c2 : ℚ) (hs : s1 = s2)
    (hseed : seed1 = seed2) (hn : n1 = n2) (hc : c1 = c2) :
    runAnomalyEngine s1 seed1 n1 c1 = runAnomalyEngine s2 seed2 n2 c2
    ∧ (runAnomalyEngine s1 seed1 n1 c1).scores =
        (runAnomalyEngine s2 seed2 n2 c2).scores
    ∧ (runAnomalyEngine s1 seed1 n1 c1).classes =
        (runAnomalyEngine s2 seed2 n2 c2).classes := by
  subst hs hseed hn hc
  exact ⟨rfl, rfl, rfl⟩

/-- Witness for C5: two runs on the sample stack with seed 42, 5 trees and
contamination 1/50 coincide. -/
theorem anomaly_engine_deterministic_witness :
    runAnomalyEngine sampleStack 42 5 (1 / 50) =
      runAnomalyEngine sampleStack 42 5 (1 / 50) :=
  (anomaly_engine_deterministic sampleStack sampleStack 42 42 5 5 (1 / 50)
    (1 / 50) rfl rfl rfl rfl).1

/-- **C6.** `validate` fails with `InsufficientValidPixels` whenever any
raster's fraction of non-nodata pixels is below `min_valid_fraction`, and a
raster that is entirely nodata is always rejected regardless of the
configured threshold (the theorem quantifies over every threshold). -/
theorem validate_insufficient_valid_pixels (rasters : List Raster) (mvf : ℚ)
    (rcm : Bool) :
    ((∃ r ∈ rasters, (rasterStats r).validFraction < mvf) →
      ValidationError.insufficientValidPixels ∈ (validate rasters mvf rcm).errors)
    ∧ (∀ r ∈ rasters, validPixels r = [] →
      ValidationError.insufficientValidPixels ∈ (validate rasters mvf rcm).errors) := by
  have hmem : (rasters.any (fun r =>
      decide ((rasterStats r).validFraction < mvf) ||
        (validPixels r).length == 0)) = true →
      ValidationError.insufficientValidPixels ∈ (validate rasters mvf rcm).errors := by
    intro hany
    unfold validate
    simp only [hany, if_true, List.mem_append, List.mem_cons]
    tauto
  constructor
  · rintro ⟨r, hr, hlt⟩
    apply hmem
    rw [List.any_eq_true]
    exact ⟨r, hr, by simp [hlt]⟩
  · intro r hr hempty
    apply hmem
    rw [List.any_eq_true]
    exact ⟨r, hr, by simp [hempty]⟩

/-- Witness for C6: a raster with valid fraction 1/2 fails against threshold
3/5, and an entirely-nodata raster fails even against threshold 0. -/
theorem validate_insufficient_valid_pixels_witness :
    ValidationError.insufficientValidPixels ∈
      (validate [mkRaster [1, -9999] "EPSG:32610"] (3 / 5) true).errors
    ∧ ValidationError.insufficientValidPixels ∈
      (validate [mkRaster [-9999] "EPSG:32610"] 0 true).errors := by
  constructor
  · exact (validate_insufficient_valid_pixels _ _ _).1
      ⟨mkRaster [1, -9999] "EPSG:32610", by simp,
        by norm_num [rasterStats, validPixels, mkRaster, List.filter]⟩
  · exact (validate_insufficient_valid_pixels _ _ _).2
      (mkRaster [-9999] "EPSG:32610") (by simp)
      (by norm_num [validPixels, mkRaster, List.filter])

/-- **C7.** For every tile validated with `require_crs_match` whose CRS
identifiers differ, `validate` fails with `CRSMismatch` and no downstream
pipeline stage (feature extraction, anomaly engine, asset encoder) ever
executes on that tile: the pipeline trace stops at validation and no result
is produced. -/
theorem crs_mismatch_halts_pipeline (t : Tile) (cfg : PipelineConfig)
    (r1 r2 : Raster) (h1 : r1 ∈ tileRasters t) (h2 : r2 ∈ tileRasters t)
    (hne : r1.crs ≠ r2.crs) (hrcm : cfg.requireCrsMatch = true) :
    ValidationError.crsMismatch ∈
      (validate (tileRasters t) cfg.minValidFraction cfg.requireCrsMatch).errors
    ∧ (runPipeline t cfg).trace = [Stage.validation]
    ∧ (runPipeline t cfg).result = none
    ∧ Stage.featureExtraction ∉ (runPipeline t cfg).trace
    ∧ Stage.anomalyEngine ∉ (runPipeline t cfg).trace
    ∧ Stage.assetEncoder ∉ (runPipeline t cfg).trace := by
  have hdiff : crsDiffer (tileRasters t) = true :=
    crsDiffer_of_pair _ r1 r2 h1 h2 hne
  have hmem : ValidationError.crsMismatch ∈
      (validate (tileRasters t) cfg.minValidFraction cfg.requireCrsMatch).errors := by
    unfold validate
    simp only [hdiff, hrcm, Bool.and_self, if_true, List.mem_append,
      List.mem_cons]
    tauto
  have hnonempty :
      (validate (tileRasters t) cfg.minValidFraction cfg.requireCrsMatch).errors ≠ [] := by
    intro h
    rw [h] at hmem
    cases hmem
  have hcond :
      (validate (tileRasters t) cfg.minValidFraction cfg.requireCrsMatch).errors.isEmpty
        = false := by
    rcases hv : (validate (tileRasters t) cfg.minValidFraction cfg.requireCrsMatch).errors with
      _ | ⟨a, l⟩
    · exact absurd hv hnonempty
    · rfl
  have hrun : runPipeline t cfg =
      { trace := [Stage.validation],
        report := validate (tileRasters t) cfg.minValidFraction cfg.requireCrsMatch,
        result := none } := by
    unfold runPipeline
    simp only [hcond, Bool.false_eq_true, if_false]
  refine ⟨hmem, ?_, ?_, ?_, ?_, ?_⟩ <;> rw [hrun] <;> simp

/-- Witness for C7: the sample tile whose DEM CRS differs from the radar CRS
is stopped at validation under the default configuration. -/
theorem crs_mismatch_halts_pipeline_witness :
    ValidationError.crsMismatch ∈
      (validate (tileRasters crsMismatchTile) ({} : PipelineConfig).minValidFraction
        ({} : PipelineConfig).requireCrsMatch).errors
    ∧ (runPipeline crsMismatchTile {}).trace = [Stage.validation]
    ∧ (runPipeline crsMismatchTile {}).result = none := by
  obtain ⟨ha, hb, hc, -⟩ := crs_mismatch_halts_pipeline crsMismatchTile {}
    crsMismatchTile.vv crsMismatchTile.dem (by simp [tileRasters])
    (by simp [tileRasters]) (by decide) rfl
  exact ⟨ha, hb, hc⟩

/-- **C8.** The feature extractor's per-pixel divisions are total: the VV/VH
cross-polarization ratio divides by VH floored at a positive epsilon, so the
floored denominator is strictly positive (the division-by-zero branch is
unreachable), and every normalized difference index evaluates to 0 whenever
its denominator `A + B` is 0. -/
theorem feature_divisions_total :
    (∀ vv vh eps : ℚ, 0 < eps →
      0 < epsFloor vh eps ∧ epsFloor vh eps ≠ 0 ∧
        crossPolRatio vv vh eps = vv / epsFloor vh eps)
    ∧ ∀ a b : ℚ, a + b = 0 → normDiff a b = 0 := by
  constructor
  · intro vv vh eps heps
    have hpos : 0 < epsFloor vh eps :=
      lt_of_lt_of_le heps (le_max_right vh eps)
    exact ⟨hpos, ne_of_gt hpos, rfl⟩
  · intro a b hab
    simp [normDiff, hab]

/-- **C1** (code evidence): the demo-mode classification path — the one the
repository actually runs when no labeled training data is supplied — emits a
full-size, plausible-looking class map with no untrained/placeholder flag,
while its 1000 training labels are fabricated from the pseudo-random stream.
This contradicts the spec's hard requirement that such output be explicitly
flagged untrained; the repository's own `CRITIQUE.md` flags it as a defect. -/
theorem demo_mode_output_not_flagged_untrained :
    (demoModeClassify sampleStack 42).untrainedFlagged = false
    ∧ (fabricatedTrainingLabels 42).length = nTrainSamples
    ∧ (demoModeClassify sampleStack 42).classMap.length = 4 := by
  refine ⟨rfl, ?_, ?_⟩
  · simp [fabricatedTrainingLabels]
  · simp [demoModeClassify, pixelVectors, sampleStack]
